import Mathlib

/-!
Verification development for the car-music download orchestrator
(`sync-yt.ts` and its sibling iterations).  The definitions below are a
shallow embedding of the program's state machine: the persistent track
store, the per-track pipeline `downloadTrack`, the reconciling variant
of `downloadTrack` (the iteration that re-checks the output artifact),
the state loader, playlist expansion, and `sanitizeFilename`.  External
collaborators (yt-dlp, ffmpeg, the filesystem) are modelled by explicit
outcome parameters; filesystem and persistence effects are recorded as
an event trace so that ordering properties can be stated.
-/

set_option autoImplicit false

namespace SyncYt

/-- `config.maxRetries` from the configuration block. -/
def maxRetries : Nat := 3

/-- The characters matched by the invalid-filename-character regex class
(backslash, slash, colon, double quote, star, question mark, angle
brackets, pipe) in the first `replace` of `sanitizeFilename`. -/
def isInvalidChar (c : Char) : Bool :=
  c == '\\' || c == '/' || c == ':' || c == '\"' || c == '*' ||
  c == '?' || c == '<' || c == '>' || c == '|'

/-- Hyphen test, for the hyphen-run collapse step of `sanitizeFilename`. -/
def isDash (c : Char) : Bool := c == '-'

/-- Global regex replacement of every maximal run of characters matched by
`inv` with the single character `rep`.  The boolean argument records
whether the previous character was part of a run (so the run is already
replaced). -/
def collapseRuns (inv : Char → Bool) (rep : Char) : List Char → Bool → List Char
  | [], _ => []
  | c :: cs, prev =>
    if inv c then
      if prev then collapseRuns inv rep cs true
      else rep :: collapseRuns inv rep cs true
    else c :: collapseRuns inv rep cs false

/-- Leading half of the edge-hyphen removal regex: drop one leading hyphen. -/
def stripLeadDash (l : List Char) : List Char :=
  match l with
  | c :: rest => if c == '-' then rest else c :: rest
  | [] => []

/-- Trailing half of the edge-hyphen removal regex: drop one trailing hyphen. -/
def stripTrailDash (l : List Char) : List Char :=
  if l.getLast? == some '-' then l.dropLast else l

/-- `sanitizeFilename` from `sync-yt.ts` (identical in the reconciling
iteration): replace runs of invalid filename characters with `-`,
collapse hyphen runs, strip one leading and one trailing hyphen, then
truncate with `substring(0, 100)`. -/
def sanitizeFilename (s : String) : String :=
  let step1 := collapseRuns isInvalidChar '-' s.data false
  let step2 := collapseRuns isDash '-' step1 false
  let step3 := stripTrailDash (stripLeadDash step2)
  String.mk (step3.take 100)

/-- `TrackState` from `sync-yt.ts`: the per-URL record kept in the
persistent state file. -/
structure TrackState where
  downloaded : Bool
  title : Option String := none
  error : Option String := none
  retries : Option Nat := none
  lastAttempt : Option String := none
  timestamp : Option String := none
deriving Repr, DecidableEq

/-- The `stats` object of `AppState`. -/
structure RunStats where
  totalTracks : Nat
  completedTracks : Nat
  errorTracks : Nat
deriving Repr, DecidableEq

/-- `AppState` from `sync-yt.ts`: the whole persisted snapshot.  The JS
object keyed by URL is embedded as an association list. -/
structure AppState where
  tracks : List (String × TrackState)
  stats : RunStats
deriving Repr, DecidableEq

/-- The initial value of `appState` before any file is loaded. -/
def emptyAppState : AppState :=
  { tracks := [], stats := { totalTracks := 0, completedTracks := 0, errorTracks := 0 } }

/-- `appState.tracks[url]` (JS property access, `undefined` as `none`). -/
def lookupTrack (s : AppState) (url : String) : Option TrackState :=
  match s.tracks.find? (fun p => p.1 == url) with
  | some p => some p.2
  | none => none

/-- `appState.tracks[url] = t` (JS property assignment: overwrite in
place or append a new key). -/
def updateTracks : List (String × TrackState) → String → TrackState → List (String × TrackState)
  | [], url, t => [(url, t)]
  | (k, v) :: rest, url, t =>
    if k == url then (k, t) :: rest else (k, v) :: updateTracks rest url t

/-- Store a track record under a URL. -/
def setTrack (s : AppState) (url : String) (t : TrackState) : AppState :=
  { s with tracks := updateTracks s.tracks url t }

/-- Startup load of the state file (`sync-yt.ts` lines 242-257):
`none` models a missing state file (the default `appState` is kept),
`Except.error` models `fs.readJsonSync` throwing (the catch handler
resets `appState` to the empty snapshot), `Except.ok` a successful
parse. -/
def loadAppState (file : Option (Except String AppState)) : AppState :=
  match file with
  | none => emptyAppState
  | some (Except.ok st) => st
  | some (Except.error _) => emptyAppState

/-- Events recorded while a track is processed: filesystem mutations of
the published artifact, track-record writes, state-file persistence and
counter updates.  Purely-external effects (process spawning, UI) are
not part of the store semantics. -/
inductive Ev where
  | attempt (url : String)
  | remove (p : String)
  | rename (src dst : String)
  | mark (url : String) (downloaded : Bool)
  | persist
  | incCompleted
  | incError
deriving Repr, DecidableEq

/-- The world a run acts on: the in-memory `appState`, the last snapshot
written to the state file (`none` before any `writeJsonSync`), and the
event trace. -/
structure Sys where
  state : AppState
  file : Option AppState
  events : List Ev
deriving Repr, DecidableEq

/-- Truthiness of `appState.tracks[url]?.downloaded`. -/
def isDownloaded (t : Option TrackState) : Bool :=
  match t with
  | some ts => ts.downloaded
  | none => false

/-- The guard `appState.tracks[url]?.retries && appState.tracks[url].retries >= config.maxRetries`
(JS truthiness: a retry count of `0` is falsy). -/
def retryGuard (t : Option TrackState) : Bool :=
  match t with
  | some ts =>
    match ts.retries with
    | some r => (r != 0) && decide (maxRetries ≤ r)
    | none => false
  | none => false

/-- `(appState.tracks[url]?.retries || 0)`. -/
def prevRetries (t : Option TrackState) : Nat :=
  match t with
  | some ts => ts.retries.getD 0
  | none => 0

/-- `path.join` specialised to directory-plus-name. -/
def pathJoin (dir name : String) : String := dir ++ "/" ++ name

/-- Outcome of one real processing attempt for a URL (metadata fetch,
download and transcode are external collaborators: the attempt either
produces a title and a transcoded artifact, or fails at some stage with
an error message; `sync-yt.ts` handles all stage failures identically). -/
inductive Outcome where
  | success (title : String)
  | failure (msg : String)
deriving Repr, DecidableEq

/-- `downloadTrack` from `sync-yt.ts` (lines 429-657).  The two skip
guards come first; otherwise one real attempt is made against the
external collaborators (`env`).  On success the artifact is published
by removing the original output path and renaming the transcoded
temporary onto it, the track is marked downloaded, the whole snapshot
is written to the state file, and the completed counter is bumped.  On
any stage failure the catch handler records the error, increments the
persisted retry count, writes the snapshot, and bumps the error
counter; the error does not escape. -/
def downloadTrack (env : String → Outcome) (time dir url : String) (w : Sys) : Sys :=
  if isDownloaded (lookupTrack w.state url) then
    { w with
      state := { w.state with
        stats := { w.state.stats with completedTracks := w.state.stats.completedTracks + 1 } },
      events := w.events ++ [Ev.incCompleted] }
  else if retryGuard (lookupTrack w.state url) then
    { w with
      state := { w.state with
        stats := { w.state.stats with errorTracks := w.state.stats.errorTracks + 1 } },
      events := w.events ++ [Ev.incError] }
  else
    match env url with
    | Outcome.success title =>
      let sanitizedTitle := sanitizeFilename title
      let outputPath := pathJoin dir (sanitizedTitle ++ ".mp4")
      let tempOutput := pathJoin dir (sanitizedTitle ++ "_temp.mp4")
      let s1 := setTrack w.state url
        { downloaded := true, title := some title, lastAttempt := some time }
      { state := { s1 with
          stats := { s1.stats with completedTracks := s1.stats.completedTracks + 1 } },
        file := some s1,
        events := w.events ++
          [Ev.attempt url, Ev.remove outputPath, Ev.rename tempOutput outputPath,
           Ev.mark url true, Ev.persist, Ev.incCompleted] }
    | Outcome.failure msg =>
      let s1 := setTrack w.state url
        { downloaded := false, error := some msg,
          retries := some (prevRetries (lookupTrack w.state url) + 1),
          lastAttempt := some time, timestamp := some time }
      { state := { s1 with
          stats := { s1.stats with errorTracks := s1.stats.errorTracks + 1 } },
        file := some s1,
        events := w.events ++ [Ev.attempt url, Ev.mark url false, Ev.persist, Ev.incError] }

/-- The sequential backbone of `main`: process every submitted URL with
`downloadTrack` (the bounded pool interleaves these calls but each call
is the unit of work; see `PoolStep` for the admission discipline). -/
def runTracks (env : String → Outcome) (time dir : String) : List String → Sys → Sys
  | [], w => w
  | url :: rest, w => runTracks env time dir rest (downloadTrack env time dir url w)

/-- The entry check of the reconciling `downloadTrack` iteration
(lines 832-858 of that file): for a track persisted as downloaded,
verify the expected `.mp4` artifact still exists in the download
directory.  `none` means the check passed and the track is skipped as
completed; `some s` is the (possibly demoted) state the pipeline
continues with.  If the artifact is missing or the record has no title,
only the `downloaded` flag is reset to `false`; every other field,
including `retries`, is left untouched. -/
def reconcileTrack (dir : String) (files : List String) (url : String)
    (s : AppState) : Option AppState :=
  match lookupTrack s url with
  | some ts =>
    if ts.downloaded then
      match ts.title with
      | some title =>
        if files.contains (pathJoin dir (sanitizeFilename title ++ ".mp4")) then none
        else some (setTrack s url { ts with downloaded := false })
      | none => some (setTrack s url { ts with downloaded := false })
    else some s
  | none => some s

/-- Attempt outcome for the reconciling iteration, which records in the
failure path the title known at failure time (`trackInfo?.title`): the
URL itself before metadata is fetched, the real title afterwards. -/
inductive OutcomeR where
  | success (title : String)
  | fetchFailure (msg : String)
  | downloadFailure (title msg : String)
  | transcodeFailure (title msg : String)
deriving Repr, DecidableEq

/-- `handleTrackError`: the persisted failure record of the reconciling
iteration (lines 793-830). -/
def failureRecord (s : AppState) (url msg time : String) (title : Option String) : TrackState :=
  { downloaded := false, title := title, error := some msg,
    retries := some (prevRetries (lookupTrack s url) + 1),
    lastAttempt := some time, timestamp := some time }

/-- `downloadTrack` of the reconciling iteration (lines 832-934):
`reconcileTrack` first, then the retry guard, then one attempt.
`finalizeTrack` (lines 770-790) publishes by remove-then-rename from
the transcode temporary in the temp directory, marks the track
downloaded, persists and bumps the completed counter.  The best-effort
removal of stage-private temporaries after finalization (lines 907-925)
only touches files under the temp directory and never the store, and is
elided from the event trace. -/
def downloadTrackR (env : String → OutcomeR) (time dir tempDir : String)
    (files : List String) (url : String) (w : Sys) : Sys :=
  match reconcileTrack dir files url w.state with
  | none =>
    { w with
      state := { w.state with
        stats := { w.state.stats with completedTracks := w.state.stats.completedTracks + 1 } },
      events := w.events ++ [Ev.incCompleted] }
  | some s0 =>
    if retryGuard (lookupTrack s0 url) then
      { w with
        state := { s0 with
          stats := { s0.stats with errorTracks := s0.stats.errorTracks + 1 } },
        events := w.events ++ [Ev.incError] }
    else
      match env url with
      | OutcomeR.success title =>
        let sanitizedTitle := sanitizeFilename title
        let finalOutputPath := pathJoin dir (sanitizedTitle ++ ".mp4")
        let tempTranscodePath := pathJoin tempDir (sanitizedTitle ++ "_transcode.mp4")
        let s1 := setTrack s0 url
          { downloaded := true, title := some title,
            lastAttempt := some time, timestamp := some time }
        { state := { s1 with
            stats := { s1.stats with completedTracks := s1.stats.completedTracks + 1 } },
          file := some s1,
          events := w.events ++
            [Ev.attempt url, Ev.remove finalOutputPath,
             Ev.rename tempTranscodePath finalOutputPath,
             Ev.mark url true, Ev.persist, Ev.incCompleted] }
      | OutcomeR.fetchFailure msg =>
        let s1 := setTrack s0 url (failureRecord s0 url msg time (some url))
        { state := { s1 with
            stats := { s1.stats with errorTracks := s1.stats.errorTracks + 1 } },
          file := some s1,
          events := w.events ++ [Ev.attempt url, Ev.mark url false, Ev.persist, Ev.incError] }
      | OutcomeR.downloadFailure title msg =>
        let s1 := setTrack s0 url (failureRecord s0 url msg time (some title))
        { state := { s1 with
            stats := { s1.stats with errorTracks := s1.stats.errorTracks + 1 } },
          file := some s1,
          events := w.events ++ [Ev.attempt url, Ev.mark url false, Ev.persist, Ev.incError] }
      | OutcomeR.transcodeFailure title msg =>
        let s1 := setTrack s0 url (failureRecord s0 url msg time (some title))
        { state := { s1 with
            stats := { s1.stats with errorTracks := s1.stats.errorTracks + 1 } },
          file := some s1,
          events := w.events ++ [Ev.attempt url, Ev.mark url false, Ev.persist, Ev.incError] }

/-- `getTracksFromPlaylist` (lines 659-695): the playlist expander.
`Except.error` models both a failing yt-dlp process and an unparsable
JSON output (the inner parse error is rethrown and lands in the same
outer catch); `Except.ok none` models a parsed document whose `entries`
is not an array.  Every failure path yields the empty list. -/
def getTracksFromPlaylist (fetch : String → Except String (Option (List String)))
    (url : String) : List String :=
  match fetch url with
  | Except.error _ => []
  | Except.ok none => []
  | Except.ok (some entries) =>
    entries.map (fun id => "https://youtube.com/watch?v=" ++ id)

/-- The playlist loop of `main` (lines 807-817): expand each configured
playlist in order, concatenating the results. -/
def gatherPlaylists (fetch : String → Except String (Option (List String))) :
    List String → List String
  | [] => []
  | p :: ps => getTracksFromPlaylist fetch p ++ gatherPlaylists fetch ps

/-- Track gathering in `main` (lines 804-820): all playlist expansions
followed by the individually configured video URLs. -/
def gatherTracks (fetch : String → Except String (Option (List String)))
    (playlists videos : List String) : List String :=
  gatherPlaylists fetch playlists ++ videos

/-- Modelled from the spec: the bounded worker pool of the Scheduler
(spec sections 4.5 and 5).  The admission discipline itself is
implemented by the external `p-limit` dependency, which is not part of
this repository's sources; this step relation models its contract as
the spec states it: a pending item may be admitted only while fewer
than `limit` items are running, admission takes items in submission
order, and any running item may finish. -/
structure PoolState where
  pending : List String
  running : List String
  done : List String
deriving Repr, DecidableEq

/-- One scheduler transition: FIFO admission under the concurrency cap,
or completion of any running item. -/
inductive PoolStep (limit : Nat) : PoolState → PoolState → Prop
  | start (u : String) (q r d : List String) :
      r.length < limit →
      PoolStep limit { pending := u :: q, running := r, done := d }
        { pending := q, running := r ++ [u], done := d }
  | finish (u : String) (q r1 r2 d : List String) :
      PoolStep limit { pending := q, running := r1 ++ u :: r2, done := d }
        { pending := q, running := r1 ++ r2, done := u :: d }

/-- No two consecutive hyphens anywhere in the character list (the
shape `sanitizeFilename`'s hyphen-collapse step is meant to ensure). -/
def noDoubleDash : List Char → Bool
  | [] => true
  | [_] => true
  | a :: b :: rest => !(a == '-' && b == '-') && noDoubleDash (b :: rest)

/-- A 105-character title: 99 letters, a hyphen, then 5 more letters.
It contains no invalid character, no hyphen run and no edge hyphen, so
the first three sanitization steps leave it unchanged and the final
truncation to 100 characters cuts it right after the hyphen. -/
def longTitle : String :=
  String.mk (List.replicate 99 'a' ++ '-' :: List.replicate 5 'a')

/-! ### Basic store lemmas -/

theorem setTrack_stats (s : AppState) (url : String) (t : TrackState) :
    (setTrack s url t).stats = s.stats := rfl

theorem find_updateTracks (url : String) (t : TrackState) :
    ∀ l : List (String × TrackState),
      (updateTracks l url t).find? (fun p => p.1 == url) = some (url, t)
  | [] => by simp [updateTracks]
  | (k, v) :: rest => by
    by_cases hk : (k == url) = true
    · have hk' : k = url := by simpa using hk
      simp [updateTracks, hk, hk']
    · have hk' : (k == url) = false := by simpa using hk
      simp [updateTracks, hk', find_updateTracks url t rest]

theorem lookupTrack_setTrack (s : AppState) (url : String) (t : TrackState) :
    lookupTrack (setTrack s url t) url = some t := by
  simp [lookupTrack, setTrack, find_updateTracks]

theorem lookupTrack_eq_of_tracks_eq {s s' : AppState} (h : s.tracks = s'.tracks)
    (url : String) : lookupTrack s url = lookupTrack s' url := by
  simp [lookupTrack, h]

/-! ### Branch lemmas for `downloadTrack` -/

theorem downloadTrack_skip_completed (env : String → Outcome) (time dir url : String)
    (w : Sys) (h : isDownloaded (lookupTrack w.state url) = true) :
    downloadTrack env time dir url w =
      { w with
        state := { w.state with
          stats := { w.state.stats with
            completedTracks := w.state.stats.completedTracks + 1 } },
        events := w.events ++ [Ev.incCompleted] } := by
  simp [downloadTrack, h]

theorem downloadTrack_skip_retries (env : String → Outcome) (time dir url : String)
    (w : Sys) (h1 : isDownloaded (lookupTrack w.state url) = false)
    (h2 : retryGuard (lookupTrack w.state url) = true) :
    downloadTrack env time dir url w =
      { w with
        state := { w.state with
          stats := { w.state.stats with
            errorTracks := w.state.stats.errorTracks + 1 } },
        events := w.events ++ [Ev.incError] } := by
  simp [downloadTrack, h1, h2]

theorem downloadTrack_success_eq (env : String → Outcome) (time dir url title : String)
    (w : Sys) (h1 : isDownloaded (lookupTrack w.state url) = false)
    (h2 : retryGuard (lookupTrack w.state url) = false)
    (h3 : env url = Outcome.success title) :
    downloadTrack env time dir url w =
      { state := { setTrack w.state url
            { downloaded := true, title := some title, lastAttempt := some time } with
          stats := { w.state.stats with
            completedTracks := w.state.stats.completedTracks + 1 } },
        file := some (setTrack w.state url
          { downloaded := true, title := some title, lastAttempt := some time }),
        events := w.events ++
          [Ev.attempt url,
           Ev.remove (pathJoin dir (sanitizeFilename title ++ ".mp4")),
           Ev.rename (pathJoin dir (sanitizeFilename title ++ "_temp.mp4"))
             (pathJoin dir (sanitizeFilename title ++ ".mp4")),
           Ev.mark url true, Ev.persist, Ev.incCompleted] } := by
  simp [downloadTrack, h1, h2, h3, setTrack_stats]

theorem downloadTrack_failure_eq (env : String → Outcome) (time dir url msg : String)
    (w : Sys) (h1 : isDownloaded (lookupTrack w.state url) = false)
    (h2 : retryGuard (lookupTrack w.state url) = false)
    (h3 : env url = Outcome.failure msg) :
    downloadTrack env time dir url w =
      { state := { setTrack w.state url
            { downloaded := false, error := some msg,
              retries := some (prevRetries (lookupTrack w.state url) + 1),
              lastAttempt := some time, timestamp := some time } with
          stats := { w.state.stats with
            errorTracks := w.state.stats.errorTracks + 1 } },
        file := some (setTrack w.state url
          { downloaded := false, error := some msg,
            retries := some (prevRetries (lookupTrack w.state url) + 1),
            lastAttempt := some time, timestamp := some time }),
        events := w.events ++
          [Ev.attempt url, Ev.mark url false, Ev.persist, Ev.incError] } := by
  simp [downloadTrack, h1, h2, h3, setTrack_stats]

/-! ### Counter accounting -/

theorem downloadTrack_stats_step (env : String → Outcome) (time dir url : String)
    (w : Sys) :
    ((downloadTrack env time dir url w).state.stats.completedTracks
        = w.state.stats.completedTracks + 1
      ∧ (downloadTrack env time dir url w).state.stats.errorTracks
        = w.state.stats.errorTracks)
    ∨ ((downloadTrack env time dir url w).state.stats.completedTracks
        = w.state.stats.completedTracks
      ∧ (downloadTrack env time dir url w).state.stats.errorTracks
        = w.state.stats.errorTracks + 1) := by
  by_cases h1 : isDownloaded (lookupTrack w.state url) = true
  · rw [downloadTrack_skip_completed env time dir url w h1]
    exact Or.inl ⟨rfl, rfl⟩
  · have h1' : isDownloaded (lookupTrack w.state url) = false := by
      simpa using h1
    by_cases h2 : retryGuard (lookupTrack w.state url) = true
    · rw [downloadTrack_skip_retries env time dir url w h1' h2]
      exact Or.inr ⟨rfl, rfl⟩
    · have h2' : retryGuard (lookupTrack w.state url) = false := by
        simpa using h2
      cases h3 : env url with
      | success title =>
        rw [downloadTrack_success_eq env time dir url title w h1' h2' h3]
        exact Or.inl ⟨rfl, rfl⟩
      | failure msg =>
        rw [downloadTrack_failure_eq env time dir url msg w h1' h2' h3]
        exact Or.inr ⟨rfl, rfl⟩

theorem downloadTrack_stats_sum (env : String → Outcome) (time dir url : String)
    (w : Sys) :
    (downloadTrack env time dir url w).state.stats.completedTracks
        + (downloadTrack env time dir url w).state.stats.errorTracks
      = w.state.stats.completedTracks + w.state.stats.errorTracks + 1 := by
  rcases downloadTrack_stats_step env time dir url w with ⟨ha, hb⟩ | ⟨ha, hb⟩ <;>
    rw [ha, hb] <;> omega

theorem runTracks_stats_sum (env : String → Outcome) (time dir : String) :
    ∀ (urls : List String) (w : Sys),
      (runTracks env time dir urls w).state.stats.completedTracks
          + (runTracks env time dir urls w).state.stats.errorTracks
        = w.state.stats.completedTracks + w.state.stats.errorTracks + urls.length
  | [], w => by simp [runTracks]
  | url :: rest, w => by
    have ih := runTracks_stats_sum env time dir rest (downloadTrack env time dir url w)
    have hstep := downloadTrack_stats_sum env time dir url w
    simp only [runTracks, List.length_cons]
    omega

/-- C1: every call of `downloadTrack` increments exactly one of the two
counters (`completedTracks` for the already-downloaded skip and success
paths, `errorTracks` for the retry-exhausted skip and failure paths) by
exactly one, so a run over any submitted list of URLs ends with
completed plus failed (each skip included in its counter) equal to the
number of submitted items. -/
theorem downloadTrack_counts_each_item_once (env : String → Outcome)
    (time dir url : String) (urls : List String) (w : Sys) :
    (((downloadTrack env time dir url w).state.stats.completedTracks
        = w.state.stats.completedTracks + 1
      ∧ (downloadTrack env time dir url w).state.stats.errorTracks
        = w.state.stats.errorTracks)
    ∨ ((downloadTrack env time dir url w).state.stats.completedTracks
        = w.state.stats.completedTracks
      ∧ (downloadTrack env time dir url w).state.stats.errorTracks
        = w.state.stats.errorTracks + 1))
    ∧ (runTracks env time dir urls w).state.stats.completedTracks
        + (runTracks env time dir urls w).state.stats.errorTracks
      = w.state.stats.completedTracks + w.state.stats.errorTracks + urls.length :=
  ⟨downloadTrack_stats_step env time dir url w,
   runTracks_stats_sum env time dir urls w⟩

/-- C6: loading the persistent state at startup is total: a missing
state file leaves the empty store, an unparsable file falls back to the
empty snapshot (empty track map, zeroed stats), and only a successful
parse replaces the store. -/
theorem loadAppState_never_aborts (e : String) (st : AppState) :
    loadAppState none = emptyAppState ∧
    loadAppState (some (Except.error e)) = emptyAppState ∧
    loadAppState (some (Except.ok st)) = st :=
  ⟨rfl, rfl, rfl⟩

/-! ### Playlist expansion -/

theorem gatherPlaylists_append (fetch : String → Except String (Option (List String))) :
    ∀ l1 l2 : List String,
      gatherPlaylists fetch (l1 ++ l2)
        = gatherPlaylists fetch l1 ++ gatherPlaylists fetch l2
  | [], l2 => by simp [gatherPlaylists]
  | p :: ps, l2 => by
    simp [gatherPlaylists, gatherPlaylists_append fetch ps l2]

/-- C9: a playlist whose expansion fails (yt-dlp error or unparsable
output) contributes the empty track list and does not abort gathering:
the gathered list equals what the remaining playlists and the
individually configured videos produce. -/
theorem playlist_failure_isolated (fetch : String → Except String (Option (List String)))
    (p msg : String) (ps1 ps2 videos : List String)
    (h : fetch p = Except.error msg) :
    getTracksFromPlaylist fetch p = [] ∧
    gatherTracks fetch (ps1 ++ p :: ps2) videos
      = gatherTracks fetch (ps1 ++ ps2) videos := by
  have h0 : getTracksFromPlaylist fetch p = [] := by
    simp [getTracksFromPlaylist, h]
  refine ⟨h0, ?_⟩
  simp [gatherTracks, gatherPlaylists_append, gatherPlaylists, h0]

/-- Witness for C9 at a concrete failing fetch. -/
theorem playlist_failure_isolated_witness :
    getTracksFromPlaylist
        (fun u => if u == "P2" then Except.error "boom" else Except.ok (some ["id1"]))
        "P2" = [] ∧
    gatherTracks
        (fun u => if u == "P2" then Except.error "boom" else Except.ok (some ["id1"]))
        (["P1"] ++ "P2" :: ["P3"]) ["v"]
      = gatherTracks
        (fun u => if u == "P2" then Except.error "boom" else Except.ok (some ["id1"]))
        (["P1"] ++ ["P3"]) ["v"] :=
  playlist_failure_isolated
    (fun u => if u == "P2" then Except.error "boom" else Except.ok (some ["id1"]))
    "P2" "boom" ["P1"] ["P3"] ["v"] rfl

/-- C5: a stage failure is contained inside `downloadTrack`: the track
record is rewritten to not-downloaded with the failure's message, the
retry count incremented by exactly one, `lastAttempt` updated; the
whole snapshot (with the updated track map) is written to the state
file; the error counter is bumped; and the run continues with the
remaining items. -/
theorem downloadTrack_failure_contained (env : String → Outcome)
    (time dir url msg : String) (w : Sys) (rest : List String)
    (h1 : isDownloaded (lookupTrack w.state url) = false)
    (h2 : retryGuard (lookupTrack w.state url) = false)
    (h3 : env url = Outcome.failure msg) :
    lookupTrack (downloadTrack env time dir url w).state url =
      some { downloaded := false, error := some msg,
             retries := some (prevRetries (lookupTrack w.state url) + 1),
             lastAttempt := some time, timestamp := some time } ∧
    (downloadTrack env time dir url w).file =
      some { tracks := (downloadTrack env time dir url w).state.tracks,
             stats := w.state.stats } ∧
    (downloadTrack env time dir url w).state.stats.errorTracks
      = w.state.stats.errorTracks + 1 ∧
    runTracks env time dir (url :: rest) w
      = runTracks env time dir rest (downloadTrack env time dir url w) := by
  have heq := downloadTrack_failure_eq env time dir url msg w h1 h2 h3
  refine ⟨?_, ?_, ?_, rfl⟩ <;> rw [heq]
  all_goals first
  | exact lookupTrack_setTrack w.state url _
  | rfl

/-- Witness for C5: a fresh track failing its first attempt. -/
theorem downloadTrack_failure_contained_witness :
    lookupTrack (downloadTrack (fun _ => Outcome.failure "boom") "t" "d" "u"
        { state := emptyAppState, file := none, events := [] }).state "u" =
      some { downloaded := false, error := some "boom",
             retries := some (prevRetries (lookupTrack emptyAppState "u") + 1),
             lastAttempt := some "t", timestamp := some "t" } ∧
    (downloadTrack (fun _ => Outcome.failure "boom") "t" "d" "u"
        { state := emptyAppState, file := none, events := [] }).file =
      some { tracks := (downloadTrack (fun _ => Outcome.failure "boom") "t" "d" "u"
                 { state := emptyAppState, file := none, events := [] }).state.tracks,
             stats := emptyAppState.stats } ∧
    (downloadTrack (fun _ => Outcome.failure "boom") "t" "d" "u"
        { state := emptyAppState, file := none, events := [] }).state.stats.errorTracks
      = emptyAppState.stats.errorTracks + 1 ∧
    runTracks (fun _ => Outcome.failure "boom") "t" "d" ["u", "v"]
        { state := emptyAppState, file := none, events := [] }
      = runTracks (fun _ => Outcome.failure "boom") "t" "d" ["v"]
        (downloadTrack (fun _ => Outcome.failure "boom") "t" "d" "u"
          { state := emptyAppState, file := none, events := [] }) :=
  downloadTrack_failure_contained (fun _ => Outcome.failure "boom") "t" "d" "u" "boom"
    { state := emptyAppState, file := none, events := [] } ["v"] rfl rfl rfl

/-- C7: finalization publishes the artifact by removing the final
output path and then renaming the transcoded temporary onto it, and
only after this replacement marks the track downloaded, persists the
snapshot, and increments the completed counter — the event trace shows
the events in exactly this order. -/
theorem downloadTrack_finalize_order (env : String → Outcome)
    (time dir url title : String) (w : Sys)
    (h1 : isDownloaded (lookupTrack w.state url) = false)
    (h2 : retryGuard (lookupTrack w.state url) = false)
    (h3 : env url = Outcome.success title) :
    (downloadTrack env time dir url w).events = w.events ++
        [Ev.attempt url,
         Ev.remove (pathJoin dir (sanitizeFilename title ++ ".mp4")),
         Ev.rename (pathJoin dir (sanitizeFilename title ++ "_temp.mp4"))
           (pathJoin dir (sanitizeFilename title ++ ".mp4")),
         Ev.mark url true, Ev.persist, Ev.incCompleted] ∧
    lookupTrack (downloadTrack env time dir url w).state url =
      some { downloaded := true, title := some title, lastAttempt := some time } ∧
    (downloadTrack env time dir url w).file =
      some { tracks := (downloadTrack env time dir url w).state.tracks,
             stats := w.state.stats } ∧
    (downloadTrack env time dir url w).state.stats.completedTracks
      = w.state.stats.completedTracks + 1 := by
  rw [downloadTrack_success_eq env time dir url title w h1 h2 h3]
  refine ⟨rfl, ?_, rfl, rfl⟩
  simpa using lookupTrack_setTrack w.state url _

/-- Witness for C7: a fresh track succeeding on its first attempt. -/
theorem downloadTrack_finalize_order_witness :
    (downloadTrack (fun _ => Outcome.success "My Song") "t" "d" "u"
        { state := emptyAppState, file := none, events := [] }).events = [] ++
        [Ev.attempt "u",
         Ev.remove (pathJoin "d" (sanitizeFilename "My Song" ++ ".mp4")),
         Ev.rename (pathJoin "d" (sanitizeFilename "My Song" ++ "_temp.mp4"))
           (pathJoin "d" (sanitizeFilename "My Song" ++ ".mp4")),
         Ev.mark "u" true, Ev.persist, Ev.incCompleted] ∧
    lookupTrack (downloadTrack (fun _ => Outcome.success "My Song") "t" "d" "u"
        { state := emptyAppState, file := none, events := [] }).state "u" =
      some { downloaded := true, title := some "My Song", lastAttempt := some "t" } ∧
    (downloadTrack (fun _ => Outcome.success "My Song") "t" "d" "u"
        { state := emptyAppState, file := none, events := [] }).file =
      some { tracks := (downloadTrack (fun _ => Outcome.success "My Song") "t" "d" "u"
                 { state := emptyAppState, file := none, events := [] }).state.tracks,
             stats := emptyAppState.stats } ∧
    (downloadTrack (fun _ => Outcome.success "My Song") "t" "d" "u"
        { state := emptyAppState, file := none, events := [] }).state.stats.completedTracks
      = emptyAppState.stats.completedTracks + 1 :=
  downloadTrack_finalize_order (fun _ => Outcome.success "My Song") "t" "d" "u" "My Song"
    { state := emptyAppState, file := none, events := [] } rfl rfl rfl

/-! ### Retry accounting across runs -/

theorem iterate_failure_state (env : String → Outcome) (time dir url msg : String)
    (w : Sys) (h3 : env url = Outcome.failure msg)
    (h0 : lookupTrack w.state url = none) :
    ∀ n : Nat,
      ((downloadTrack env time dir url)^[n] w).events.count (Ev.attempt url)
        = w.events.count (Ev.attempt url) + min n maxRetries ∧
      (1 ≤ n →
        lookupTrack ((downloadTrack env time dir url)^[n] w).state url =
          some { downloaded := false, error := some msg,
                 retries := some (min n maxRetries),
                 lastAttempt := some time, timestamp := some time })
  | 0 => by simp
  | n + 1 => by
    have ih := iterate_failure_state env time dir url msg w h3 h0 n
    rw [Function.iterate_succ_apply']
    rcases Nat.eq_zero_or_pos n with hn0 | hn1
    · subst hn0
      simp only [Function.iterate_zero_apply]
      have h1 : isDownloaded (lookupTrack w.state url) = false := by
        rw [h0]; rfl
      have h2 : retryGuard (lookupTrack w.state url) = false := by
        rw [h0]; rfl
      rw [downloadTrack_failure_eq env time dir url msg w h1 h2 h3]
      constructor
      · simp [List.count_append, List.count_cons, maxRetries]
      · intro _
        rw [h0]
        simpa [prevRetries, maxRetries] using lookupTrack_setTrack w.state url _
    · set wn := (downloadTrack env time dir url)^[n] w with hwn
      have ih2 := ih.2 hn1
      have h1 : isDownloaded (lookupTrack wn.state url) = false := by
        rw [ih2]; rfl
      rcases Nat.lt_or_ge n maxRetries with hlt | hge
      · have hmin : min n maxRetries = n := Nat.min_eq_left (Nat.le_of_lt hlt)
        have h2 : retryGuard (lookupTrack wn.state url) = false := by
          rw [ih2, hmin]
          have : ¬ (maxRetries ≤ n) := Nat.not_le_of_lt hlt
          simp [retryGuard, this]
        rw [downloadTrack_failure_eq env time dir url msg wn h1 h2 h3]
        have hmin1 : min (n + 1) maxRetries = n + 1 := by
          simp [maxRetries] at hlt ⊢; omega
        constructor
        · simp only [List.count_append, ih.1, hmin, hmin1]
          simp [List.count_cons]
          omega
        · intro _
          have := lookupTrack_setTrack wn.state url
            { downloaded := false, error := some msg,
              retries := some (prevRetries (lookupTrack wn.state url) + 1),
              lastAttempt := some time, timestamp := some time }
          rw [ih2, hmin] at this ⊢
          simpa [prevRetries, hmin1] using this
      · have hmin : min n maxRetries = maxRetries := Nat.min_eq_right hge
        have h2 : retryGuard (lookupTrack wn.state url) = true := by
          rw [ih2, hmin]
          simp [retryGuard, maxRetries]
        rw [downloadTrack_skip_retries env time dir url wn h1 h2]
        have hmin1 : min (n + 1) maxRetries = maxRetries := by
          simp [maxRetries] at hge ⊢; omega
        constructor
        · simp only [List.count_append, ih.1, hmin, hmin1]
          simp [List.count_cons]
        · intro _
          rw [hmin1, ← hmin]
          exact (lookupTrack_eq_of_tracks_eq rfl url).trans ih2

/-- C2: a fresh track whose attempts always fail is really attempted
exactly `maxRetries` (= 3) times across repeated runs of
`downloadTrack`: after `n` runs the trace holds `min n maxRetries` real
attempts, and once `maxRetries` runs have happened the persisted record
is parked at `retries = maxRetries` and the entry guard blocks every
further attempt. -/
theorem downloadTrack_retry_bound (env : String → Outcome)
    (time dir url msg : String) (w : Sys) (n : Nat)
    (h3 : env url = Outcome.failure msg)
    (h0 : lookupTrack w.state url = none) :
    ((downloadTrack env time dir url)^[n] w).events.count (Ev.attempt url)
      = w.events.count (Ev.attempt url) + min n maxRetries ∧
    (maxRetries ≤ n →
      lookupTrack ((downloadTrack env time dir url)^[n] w).state url =
        some { downloaded := false, error := some msg, retries := some maxRetries,
               lastAttempt := some time, timestamp := some time }) := by
  have h := iterate_failure_state env time dir url msg w h3 h0 n
  refine ⟨h.1, fun hn => ?_⟩
  have := h.2 (le_trans (by simp [maxRetries]) hn)
  rwa [Nat.min_eq_right hn] at this

/-- Witness for C2: five runs of an always-failing track yield exactly
three attempts. -/
theorem downloadTrack_retry_bound_witness :
    ((downloadTrack (fun _ => Outcome.failure "boom") "t" "d" "u")^[5]
        { state := emptyAppState, file := none, events := [] }).events.count
        (Ev.attempt "u")
      = ([] : List Ev).count (Ev.attempt "u") + min 5 maxRetries ∧
    (maxRetries ≤ 5 →
      lookupTrack ((downloadTrack (fun _ => Outcome.failure "boom") "t" "d" "u")^[5]
          { state := emptyAppState, file := none, events := [] }).state "u" =
        some { downloaded := false, error := some "boom", retries := some maxRetries,
               lastAttempt := some "t", timestamp := some "t" }) :=
  downloadTrack_retry_bound (fun _ => Outcome.failure "boom") "t" "d" "u" "boom"
    { state := emptyAppState, file := none, events := [] } 5 rfl rfl

/-! ### Re-running the scheduler -/

/-- C4 counterexample: with identical collaborator outcomes (the same
URL keeps failing), the second run is not a no-op on the store: the
failed track's persisted retry count advances from 1 to 2, so the store
contents after the second run differ from the contents after the
first. -/
theorem runTracks_not_idempotent_cex :
    (runTracks (fun _ => Outcome.failure "boom") "t" "d" ["u"]
        (runTracks (fun _ => Outcome.failure "boom") "t" "d" ["u"]
          { state := emptyAppState, file := none, events := [] })).state.tracks ≠
    (runTracks (fun _ => Outcome.failure "boom") "t" "d" ["u"]
        { state := emptyAppState, file := none, events := [] }).state.tracks := by
  decide

/-- C4 (amended): re-running the scheduler leaves the store untouched
only once every submitted item is terminal — already downloaded, or
parked with a nonzero retry count at or above `maxRetries`.  In that
case a run changes neither the in-memory track map nor the persisted
file (it only re-counts the skips); a failed-but-not-exhausted item is
instead re-attempted by the next run and its record rewritten. -/
theorem runTracks_noop_on_terminal (env : String → Outcome) (time dir : String) :
    ∀ (urls : List String) (w : Sys),
      (∀ url ∈ urls,
        (isDownloaded (lookupTrack w.state url)
          || retryGuard (lookupTrack w.state url)) = true) →
      (runTracks env time dir urls w).state.tracks = w.state.tracks ∧
      (runTracks env time dir urls w).file = w.file
  | [], w, _ => ⟨rfl, rfl⟩
  | url :: rest, w, h => by
    have hu := h url (List.mem_cons_self url rest)
    have hstep : (downloadTrack env time dir url w).state.tracks = w.state.tracks ∧
        (downloadTrack env time dir url w).file = w.file := by
      by_cases hd : isDownloaded (lookupTrack w.state url) = true
      · rw [downloadTrack_skip_completed env time dir url w hd]
        exact ⟨rfl, rfl⟩
      · have hd' : isDownloaded (lookupTrack w.state url) = false := by simpa using hd
        have hor : isDownloaded (lookupTrack w.state url) = true
            ∨ retryGuard (lookupTrack w.state url) = true := by
          simpa using hu
        have hg : retryGuard (lookupTrack w.state url) = true := by
          rcases hor with h1 | h1
          · exact absurd h1 hd
          · exact h1
        rw [downloadTrack_skip_retries env time dir url w hd' hg]
        exact ⟨rfl, rfl⟩
    have hrest : ∀ u ∈ rest,
        (isDownloaded (lookupTrack (downloadTrack env time dir url w).state u)
          || retryGuard (lookupTrack (downloadTrack env time dir url w).state u)) = true := by
      intro u hu'
      rw [lookupTrack_eq_of_tracks_eq hstep.1 u]
      exact h u (List.mem_cons_of_mem url hu')
    have ih := runTracks_noop_on_terminal env time dir rest
      (downloadTrack env time dir url w) hrest
    exact ⟨by simpa [runTracks] using ih.1.trans hstep.1,
           by simpa [runTracks] using ih.2.trans hstep.2⟩

/-- Witness for the amended C4: a store whose only submitted item is
already downloaded is left unchanged by a re-run. -/
theorem runTracks_noop_on_terminal_witness :
    (runTracks (fun _ => Outcome.failure "boom") "t" "d" ["u"]
        { state := { tracks := [("u", { downloaded := true, title := some "T" })],
                     stats := { totalTracks := 1, completedTracks := 1, errorTracks := 0 } },
          file := none, events := [] }).state.tracks =
      [("u", { downloaded := true, title := some "T" })] ∧
    (runTracks (fun _ => Outcome.failure "boom") "t" "d" ["u"]
        { state := { tracks := [("u", { downloaded := true, title := some "T" })],
                     stats := { totalTracks := 1, completedTracks := 1, errorTracks := 0 } },
          file := none, events := [] }).file = none :=
  runTracks_noop_on_terminal (fun _ => Outcome.failure "boom") "t" "d" ["u"]
    { state := { tracks := [("u", { downloaded := true, title := some "T" })],
                 stats := { totalTracks := 1, completedTracks := 1, errorTracks := 0 } },
      file := none, events := [] } (by decide)

/-! ### Reconciliation -/

/-- C3: a track persisted as downloaded whose expected `.mp4` artifact
is absent from the download directory is demoted by the next run's
check: only the `downloaded` flag is flipped to `false` (the
record-update form shows every other field, in particular `retries`,
preserved rather than reset), the demoted record is what the store then
holds, and — its retry budget permitting — the track re-enters the
pipeline, witnessed by a real attempt in the event trace. -/
theorem reconcile_demotes_preserving_retries
    (env : String → OutcomeR) (time dir tempDir : String) (files : List String)
    (url t : String) (s : AppState) (f : Option AppState) (evs : List Ev)
    (ts : TrackState)
    (hts : lookupTrack s url = some ts)
    (hdl : ts.downloaded = true)
    (htitle : ts.title = some t)
    (habsent : files.contains (pathJoin dir (sanitizeFilename t ++ ".mp4")) = false)
    (hguard : retryGuard (lookupTrack s url) = false) :
    reconcileTrack dir files url s
      = some (setTrack s url { ts with downloaded := false }) ∧
    lookupTrack (setTrack s url { ts with downloaded := false }) url
      = some { ts with downloaded := false } ∧
    Ev.attempt url ∈
      (downloadTrackR env time dir tempDir files url
        { state := s, file := f, events := evs }).events := by
  have habsent' : pathJoin dir (sanitizeFilename t ++ ".mp4") ∉ files := by
    simpa using habsent
  have hrec : reconcileTrack dir files url s
      = some (setTrack s url { ts with downloaded := false }) := by
    simp [reconcileTrack, hts, hdl, htitle, habsent, habsent']
  have hlook := lookupTrack_setTrack s url { ts with downloaded := false }
  have hguard' : retryGuard
      (lookupTrack (setTrack s url { ts with downloaded := false }) url) = false := by
    rw [hlook]
    rw [hts] at hguard
    simpa [retryGuard] using hguard
  refine ⟨hrec, hlook, ?_⟩
  cases henv : env url <;>
    simp [downloadTrackR, hrec, hguard', henv]

/-- Witness for C3: a completed track with two recorded retries whose
artifact has vanished. -/
theorem reconcile_demotes_preserving_retries_witness :
    reconcileTrack "d" [] "u"
        { tracks := [("u", { downloaded := true, title := some "T", retries := some 2 })],
          stats := { totalTracks := 1, completedTracks := 1, errorTracks := 0 } }
      = some (setTrack
          { tracks := [("u", { downloaded := true, title := some "T", retries := some 2 })],
            stats := { totalTracks := 1, completedTracks := 1, errorTracks := 0 } }
          "u" { downloaded := false, title := some "T", retries := some 2 }) ∧
    lookupTrack (setTrack
          { tracks := [("u", { downloaded := true, title := some "T", retries := some 2 })],
            stats := { totalTracks := 1, completedTracks := 1, errorTracks := 0 } }
          "u" { downloaded := false, title := some "T", retries := some 2 }) "u"
      = some { downloaded := false, title := some "T", retries := some 2 } ∧
    Ev.attempt "u" ∈
      (downloadTrackR (fun _ => OutcomeR.fetchFailure "gone") "t" "d" "tmp" [] "u"
        { state :=
            { tracks := [("u", { downloaded := true, title := some "T", retries := some 2 })],
              stats := { totalTracks := 1, completedTracks := 1, errorTracks := 0 } },
          file := none, events := [] }).events :=
  reconcile_demotes_preserving_retries (fun _ => OutcomeR.fetchFailure "gone")
    "t" "d" "tmp" [] "u" "T"
    { tracks := [("u", { downloaded := true, title := some "T", retries := some 2 })],
      stats := { totalTracks := 1, completedTracks := 1, errorTracks := 0 } }
    none [] { downloaded := true, title := some "T", retries := some 2 }
    rfl rfl rfl rfl (by decide)

/-! ### Worker pool -/

/-- C8: along every schedule reachable from a fresh pool, at most
`limit` items are ever simultaneously in execution, and items are
admitted in submission order: the pending queue is always a suffix of
the submitted list, the admitted items the corresponding prefix. -/
theorem pool_respects_concurrency_cap (limit : Nat) (urls : List String)
    (s : PoolState)
    (h : Relation.ReflTransGen (PoolStep limit)
      { pending := urls, running := [], done := [] } s) :
    s.running.length ≤ limit ∧ ∃ admitted, urls = admitted ++ s.pending := by
  induction h with
  | refl => exact ⟨by simp, ⟨[], by simp⟩⟩
  | tail hab hbc ih =>
    rcases ih with ⟨hlen, admitted, hpend⟩
    cases hbc with
    | start u q r d hr =>
      refine ⟨by simpa using hr, admitted ++ [u], ?_⟩
      simp only at hpend ⊢
      rw [hpend]
      simp
    | finish u q r1 r2 d =>
      refine ⟨?_, admitted, hpend⟩
      simp only [List.length_append, List.length_cons] at hlen ⊢
      omega

/-- Witness for C8: with a cap of 1 and two submitted items, the state
after admitting the first item respects the cap and keeps the second
item queued. -/
theorem pool_respects_concurrency_cap_witness :
    ({ pending := ["b"], running := ["a"], done := [] } : PoolState).running.length ≤ 1 ∧
    ∃ admitted, ["a", "b"] = admitted ++
      ({ pending := ["b"], running := ["a"], done := [] } : PoolState).pending :=
  pool_respects_concurrency_cap 1 ["a", "b"]
    { pending := ["b"], running := ["a"], done := [] }
    (Relation.ReflTransGen.single (PoolStep.start "a" ["b"] [] [] (by decide)))

/-! ### sanitizeFilename -/

theorem collapseRuns_all (inv : Char → Bool) (rep : Char) (p : Char → Bool)
    (hrep : p rep = true) :
    ∀ (l : List Char) (b : Bool),
      (∀ c ∈ l, inv c = false → p c = true) →
      (collapseRuns inv rep l b).all p = true
  | [], _, _ => rfl
  | c :: cs, b, h => by
    have htail : ∀ x ∈ cs, inv x = false → p x = true :=
      fun x hx => h x (List.mem_cons_of_mem _ hx)
    by_cases hc : inv c = true
    · cases b <;>
        simp [collapseRuns, hc, hrep,
          collapseRuns_all inv rep p hrep cs true htail]
    · have hc' : inv c = false := by simpa using hc
      simp [collapseRuns, hc', h c (List.mem_cons_self c cs) hc',
        collapseRuns_all inv rep p hrep cs false htail]

theorem noDoubleDash_cons (a : Char) (l : List Char)
    (ha : a = '-' → l.head? ≠ some '-') (hl : noDoubleDash l = true) :
    noDoubleDash (a :: l) = true := by
  cases l with
  | nil => rfl
  | cons b bs =>
    by_cases hab : a = '-'
    · have hb : b ≠ '-' := by
        intro hb
        exact ha hab (by simp [hb])
      simp [noDoubleDash, hl, hb, hab]
    · simp [noDoubleDash, hl, hab]

theorem noDoubleDash_head (a b : Char) (l : List Char)
    (h : noDoubleDash (a :: b :: l) = true) (ha : a = '-') : b ≠ '-' := by
  subst ha
  intro hb
  subst hb
  simp [noDoubleDash] at h

theorem noDoubleDash_rest (a b : Char) (l : List Char)
    (h : noDoubleDash (a :: b :: l) = true) : noDoubleDash (b :: l) = true := by
  simp only [noDoubleDash, Bool.and_eq_true] at h
  exact h.2

theorem collapseRuns_dash_noDoubleDash :
    ∀ (l : List Char) (b : Bool),
      noDoubleDash (collapseRuns isDash '-' l b) = true ∧
      (b = true → (collapseRuns isDash '-' l b).head? ≠ some '-')
  | [], _ => ⟨rfl, fun _ => by simp [collapseRuns]⟩
  | c :: cs, b => by
    by_cases hc : isDash c = true
    · cases b with
      | true =>
        have hred : collapseRuns isDash '-' (c :: cs) true
            = collapseRuns isDash '-' cs true := by
          simp [collapseRuns, hc]
        rw [hred]
        have ih := collapseRuns_dash_noDoubleDash cs true
        exact ⟨ih.1, fun _ => ih.2 rfl⟩
      | false =>
        have hred : collapseRuns isDash '-' (c :: cs) false
            = '-' :: collapseRuns isDash '-' cs true := by
          simp [collapseRuns, hc]
        rw [hred]
        have ih := collapseRuns_dash_noDoubleDash cs true
        exact ⟨noDoubleDash_cons '-' _ (fun _ => ih.2 rfl) ih.1, fun hf => by simp at hf⟩
    · have hc' : isDash c = false := by simpa using hc
      have hcne : ¬ c = '-' := by simpa [isDash] using hc
      have ih := collapseRuns_dash_noDoubleDash cs false
      have hred : collapseRuns isDash '-' (c :: cs) b
          = c :: collapseRuns isDash '-' cs false := by
        simp [collapseRuns, hc']
      rw [hred]
      exact ⟨noDoubleDash_cons c _ (fun hcd => absurd hcd hcne) ih.1,
        fun _ => by simp [hcne]⟩

theorem noDoubleDash_tail : ∀ l : List Char,
    noDoubleDash l = true → noDoubleDash l.tail = true
  | [], _ => rfl
  | [_], _ => rfl
  | a :: b :: rest, h => by
    simpa using noDoubleDash_rest a b rest h

theorem noDoubleDash_dropLast : ∀ l : List Char,
    noDoubleDash l = true → noDoubleDash l.dropLast = true
  | [], _ => rfl
  | [_], _ => rfl
  | a :: b :: rest, h => by
    have ih := noDoubleDash_dropLast (b :: rest) (noDoubleDash_rest a b rest h)
    cases rest with
    | nil => simp [noDoubleDash]
    | cons c rs =>
      have hd : (a :: b :: c :: rs).dropLast = a :: (b :: c :: rs).dropLast := by
        simp [List.dropLast]
      rw [hd]
      refine noDoubleDash_cons a _ (fun ha => ?_) ih
      have hb := noDoubleDash_head a b (c :: rs) h ha
      have hd2 : (b :: c :: rs).dropLast = b :: (c :: rs).dropLast := by
        simp [List.dropLast]
      rw [hd2]
      simp [hb]

theorem noDoubleDash_take : ∀ (n : Nat) (l : List Char),
    noDoubleDash l = true → noDoubleDash (l.take n) = true
  | 0, l, _ => by simp [noDoubleDash]
  | _ + 1, [], _ => rfl
  | n + 1, a :: l, h => by
    have ih := noDoubleDash_take n l (noDoubleDash_tail (a :: l) h)
    rw [List.take_succ_cons]
    refine noDoubleDash_cons a _ (fun ha => ?_) ih
    cases l with
    | nil => simp
    | cons b bs =>
      cases n with
      | zero => simp
      | succ m =>
        rw [List.take_succ_cons]
        have hb := noDoubleDash_head a b bs h ha
        simp [hb]

theorem stripLeadDash_cases (l : List Char) :
    stripLeadDash l = l ∨ stripLeadDash l = l.tail := by
  cases l with
  | nil => exact Or.inl rfl
  | cons c rest =>
    by_cases hc : (c == '-') = true
    · exact Or.inr (by simp [stripLeadDash, hc])
    · have hc' : (c == '-') = false := by simpa using hc
      exact Or.inl (by simp [stripLeadDash, hc'])

theorem stripTrailDash_cases (l : List Char) :
    stripTrailDash l = l ∨ stripTrailDash l = l.dropLast := by
  by_cases hg : (l.getLast? == some '-') = true
  · exact Or.inr (by simp [stripTrailDash, hg])
  · have hg' : (l.getLast? == some '-') = false := by simpa using hg
    exact Or.inl (by simp [stripTrailDash, hg'])

theorem stripLeadDash_head (l : List Char) (h : noDoubleDash l = true) :
    (stripLeadDash l).head? ≠ some '-' := by
  cases l with
  | nil => simp [stripLeadDash]
  | cons c rest =>
    by_cases hc : (c == '-') = true
    · have hc' : c = '-' := by simpa using hc
      have hred : stripLeadDash (c :: rest) = rest := by simp [stripLeadDash, hc]
      rw [hred]
      cases rest with
      | nil => simp
      | cons b bs =>
        have hb := noDoubleDash_head c b bs h hc'
        simp [hb]
    · have hc' : ¬ c = '-' := by simpa using hc
      have hred : stripLeadDash (c :: rest) = c :: rest := by
        simp [stripLeadDash, hc']
      rw [hred]
      simp [hc']

theorem stripTrailDash_head (l : List Char) (h : l.head? ≠ some '-') :
    (stripTrailDash l).head? ≠ some '-' := by
  rcases stripTrailDash_cases l with he | he <;> rw [he]
  · exact h
  · cases l with
    | nil => simp
    | cons c rest =>
      cases rest with
      | nil => simp
      | cons b bs =>
        have hd : (c :: b :: bs).dropLast = c :: (b :: bs).dropLast := by
          simp [List.dropLast]
        rw [hd]
        simpa using h

theorem take100_head (l : List Char) (h : l.head? ≠ some '-') :
    (l.take 100).head? ≠ some '-' := by
  cases l with
  | nil => simp
  | cons c rest =>
    rw [show (100 : Nat) = 99 + 1 from rfl, List.take_succ_cons]
    simpa using h

/-- C10 counterexample: `sanitizeFilename` can return a string that
ends with a hyphen.  On a 105-character title whose 100th character is
a hyphen, the first three steps are the identity and the final
truncation cuts directly after the hyphen, so the result ends in `-`. -/
theorem sanitizeFilename_trailing_dash_cex :
    (sanitizeFilename longTitle).data.getLast? = some '-' := by decide

/-- C10 (amended): for every input, `sanitizeFilename` returns at most
100 characters, none of which is an invalid filename character, with no
two consecutive hyphens, and the result does not start with a hyphen.
(It can still end with a hyphen, introduced by the final truncation, as
the counterexample shows.) -/
theorem sanitizeFilename_sanitized (s : String) :
    (sanitizeFilename s).length ≤ 100 ∧
    (sanitizeFilename s).data.all (fun c => !(isInvalidChar c)) = true ∧
    noDoubleDash (sanitizeFilename s).data = true ∧
    (sanitizeFilename s).data.head? ≠ some '-' := by
  have hs : sanitizeFilename s = String.mk
      ((stripTrailDash (stripLeadDash
        (collapseRuns isDash '-'
          (collapseRuns isInvalidChar '-' s.data false) false))).take 100) := rfl
  rw [hs]
  set step1 := collapseRuns isInvalidChar '-' s.data false with hstep1
  set step2 := collapseRuns isDash '-' step1 false with hstep2
  set step3 := stripTrailDash (stripLeadDash step2) with hstep3
  have n2 : noDoubleDash step2 = true :=
    (collapseRuns_dash_noDoubleDash step1 false).1
  have n2' : noDoubleDash (stripLeadDash step2) = true := by
    rcases stripLeadDash_cases step2 with he | he <;> rw [he]
    · exact n2
    · exact noDoubleDash_tail step2 n2
  have n3 : noDoubleDash step3 = true := by
    rw [hstep3]
    rcases stripTrailDash_cases (stripLeadDash step2) with he | he <;> rw [he]
    · exact n2'
    · exact noDoubleDash_dropLast _ n2'
  refine ⟨?_, ?_, ?_, ?_⟩
  · exact List.length_take_le 100 step3
  · have a1 : step1.all (fun c => !(isInvalidChar c)) = true := by
      apply collapseRuns_all isInvalidChar '-' _ (by decide)
      intro c _ hcinv
      simp [hcinv]
    have a2 : step2.all (fun c => !(isInvalidChar c)) = true := by
      apply collapseRuns_all isDash '-' _ (by decide)
      intro c hc _
      exact List.all_eq_true.mp a1 c hc
    have a3 : ∀ c ∈ step3, (!(isInvalidChar c)) = true := by
      intro c hc
      have hsub : c ∈ step2 := by
        have hmem : c ∈ stripLeadDash step2 := by
          rw [hstep3] at hc
          rcases stripTrailDash_cases (stripLeadDash step2) with he | he
          · rwa [he] at hc
          · rw [he] at hc
            exact List.dropLast_subset _ hc
        rcases stripLeadDash_cases step2 with he | he
        · rwa [he] at hmem
        · rw [he] at hmem
          exact List.mem_of_mem_tail hmem
      exact List.all_eq_true.mp a2 c hsub
    exact List.all_eq_true.mpr (fun c hc => a3 c (List.take_subset 100 step3 hc))
  · exact noDoubleDash_take 100 step3 n3
  · have hh2 : (stripLeadDash step2).head? ≠ some '-' := stripLeadDash_head step2 n2
    have hh3 : step3.head? ≠ some '-' := by
      rw [hstep3]
      exact stripTrailDash_head _ hh2
    exact take100_head step3 hh3

end SyncYt
